import Mathlib

/-!
Verification of the release-notes generator: a shallow embedding of
`generate_asciidoc_release_notes.py` and `utils.py`.

Python dictionaries for sections carry optional keys (`tickets`,
`subsections`, `highlights`), modelled as `Option` fields.  A direct
`d['k']` access on a missing key raises `KeyError`; fallible code is
modelled with `Except String`.  `d.get('k', default)` is modelled with
`Option.getD`.  Ticket and highlight identifiers are numeric in all the
data the tool handles, so they are modelled as `Nat`.
-/

/-- A ticket: `id` and `title` are always accessed directly
(`ticket['id']`, `ticket['title']`), `highlight_id` only through
`ticket.get('highlight_id')`, hence the `Option`. -/
structure Ticket where
  id : Nat
  title : String
  highlight_id : Option Nat
deriving DecidableEq

/-- A highlight entry: `id` and `title` are accessed directly. -/
structure Highlight where
  id : Nat
  title : String
deriving DecidableEq

/-- A section node of the release-notes tree.  The `name` key is always
present (accessed directly everywhere); `tickets`, `highlights` and
`subsections` are optional keys of the Python dict. -/
inductive Sec : Type where
  | mk (name : String) (tickets : Option (List Ticket))
       (highlights : Option (List Highlight))
       (subsections : Option (List Sec)) : Sec

def Sec.name : Sec → String
  | .mk n _ _ _ => n

def Sec.tickets : Sec → Option (List Ticket)
  | .mk _ t _ _ => t

def Sec.highlights : Sec → Option (List Highlight)
  | .mk _ _ h _ => h

def Sec.subsections : Sec → Option (List Sec)
  | .mk _ _ _ s => s

/-- Replace the `subsections` entry of a section node (used to model the
in-place mutation of the shared list object held under the
`'subsections'` key). -/
def Sec.withSubsections : Sec → Option (List Sec) → Sec
  | .mk n t h _, s => .mk n t h s

/-- A patch record: `number`, `release_date` and `tickets` are all
accessed directly in `generate_asciidoc`. -/
structure Patch where
  number : String
  release_date : String
  tickets : List Ticket
deriving DecidableEq

/-- The Python error message raised by `find_section` when a path
segment is absent (`ValueError`). -/
def section_not_found_msg (n : String) : String :=
  "Section \"" ++ n ++ "\" does not exist. Please create it using the add-section command."

/-- `utils.find_section`: descend from the root sibling list, at each
level taking the first node whose name equals the next path element
(`next(sec for sec in current_level if sec['name'] == section_name)`),
erroring when absent.  `section.get('subsections', [])` is
`Option.getD`.  On an empty path the Python function would raise
`UnboundLocalError` (the variable `section` is never bound); that case
is modelled by the distinct error string below. -/
def find_section (existing_sections : List Sec) : List String → Except String Sec
  | [] => .error "UnboundLocalError: section"
  | [n] =>
    match existing_sections.find? (fun s => s.name == n) with
    | none => .error (section_not_found_msg n)
    | some s => .ok s
  | n :: rest =>
    match existing_sections.find? (fun s => s.name == n) with
    | none => .error (section_not_found_msg n)
    | some s => find_section (s.subsections.getD []) rest

/-- Split a sibling list at the first node carrying the given name,
returning the earlier siblings, the node, and the later siblings.
`none` when no sibling has the name.  This models the
`next((sec for sec in current_level if sec['name'] == section_name), None)`
lookup while keeping the untouched siblings explicit. -/
def splitAtName : List Sec → String → Option (List Sec × Sec × List Sec)
  | [], _ => none
  | s :: rest, n =>
    if s.name == n then some ([], s, rest)
    else (splitAtName rest n).map (fun pr => (s :: pr.1, pr.2.1, pr.2.2))

/-- Recursive core of `utils.create_section_hierarchy`.  `a` is the
value of `len(section_names) > 1 or include_subsections`, computed once
from the original call (the Python condition reads the full
`section_names` list, not the remaining suffix).  The function returns
the sibling list after all mutations together with the final value of
the Python `section` variable.  When a matched node has no
`'subsections'` key, `section.get('subsections', [])` produces a fresh
list that is not part of the tree, so the remaining creations are lost:
the level is returned unchanged and only the returned section comes
from the detached recursion. -/
def create_section_hierarchy_aux (a : Bool) : List Sec → List String → List Sec × Option Sec
  | level, [] => (level, none)
  | level, name :: rest =>
    match splitAtName level name with
    | some (pre, s, post) =>
      match rest with
      | [] => (level, some s)
      | _ :: _ =>
        match s.subsections with
        | some subs =>
          let r := create_section_hierarchy_aux a subs rest
          (pre ++ [s.withSubsections (some r.1)] ++ post, r.2)
        | none => (level, (create_section_hierarchy_aux a [] rest).2)
    | none =>
      match rest with
      | [] =>
        let newSec : Sec := .mk name (some []) none (if a then some [] else none)
        (level ++ [newSec], some newSec)
      | _ :: _ =>
        if a then
          let r := create_section_hierarchy_aux a [] rest
          (level ++ [Sec.mk name (some []) none (some r.1)], r.2)
        else
          (level ++ [Sec.mk name (some []) none none],
           (create_section_hierarchy_aux a [] rest).2)

/-- `utils.create_section_hierarchy`: returns the top-level sibling list
after mutation and the dict bound to `section` when the loop ends. -/
def create_section_hierarchy (existing_sections : List Sec) (section_names : List String)
    (include_subsections : Bool) : List Sec × Option Sec :=
  create_section_hierarchy_aux
    (decide (1 < section_names.length) || include_subsections)
    existing_sections section_names

/-- `utils.ticket_exists`: recursive whole-tree scan.  The Python loop
returns `True` as soon as a section's own tickets
(`section.get('tickets', [])`) contain the id or the recursive call on
`section.get('subsections', [])` succeeds; the missing-key default `[]`
contributes `False`. -/
def ticket_exists : List Sec → Nat → Bool
  | [], _ => false
  | .mk _ t _ (some subs) :: rest, tid =>
    (t.getD []).any (fun tk => tk.id == tid)
      || ticket_exists subs tid || ticket_exists rest tid
  | .mk _ t _ none :: rest, tid =>
    (t.getD []).any (fun tk => tk.id == tid) || ticket_exists rest tid

/-- All tickets of the tree in document order (a specification-side
flattening used to state what `ticket_exists` decides). -/
def allTickets : List Sec → List Ticket
  | [] => []
  | .mk _ t _ (some subs) :: rest => t.getD [] ++ (allTickets subs ++ allTickets rest)
  | .mk _ t _ none :: rest => t.getD [] ++ allTickets rest

/-! ### Text helpers

Small executable models of the Python string operations used by the
generator: `', '.join`, substring containment (`x in s`), line
splitting, and list insertion (`list.insert`). -/

/-- `sep.join xs` for Python strings: empty for `[]`, no trailing
separator. -/
def join_with (sep : String) : List String → String
  | [] => ""
  | [x] => x
  | x :: y :: xs => x ++ sep ++ join_with sep (y :: xs)

/-- Index of the first occurrence of `needle` in `hay` (as character
lists), `none` when `needle` never occurs. -/
def firstOcc (needle : List Char) : List Char → Option Nat
  | [] => if needle = [] then some 0 else none
  | c :: rest =>
    if needle.isPrefixOf (c :: rest) then some 0
    else (firstOcc needle rest).map (· + 1)

/-- Python `needle in hay` for strings. -/
def containsStr (needle hay : String) : Bool :=
  (firstOcc needle.toList hay.toList).isSome

/-- `true` when the first occurrence of `a` in `hay` is strictly before
the first occurrence of `b` (both must occur). -/
def firstOccursBefore (a b hay : String) : Bool :=
  match firstOcc a.toList hay.toList, firstOcc b.toList hay.toList with
  | some i, some j => decide (i < j)
  | _, _ => false

/-- Split a character list on a separator character, keeping empty
pieces (the behaviour of Python `str.split('\n')`). -/
def splitCharsOn (c : Char) : List Char → List (List Char)
  | [] => [[]]
  | x :: xs =>
    if x = c then [] :: splitCharsOn c xs
    else
      match splitCharsOn c xs with
      | [] => [[x]]
      | l :: ls => (x :: l) :: ls

/-- The lines of a string, split on newline characters. -/
def splitLines (s : String) : List String :=
  (splitCharsOn '\n' s.toList).map String.mk

/-- Python `list.insert(i, a)`: insert before position `i`, clamping to
the end when `i` exceeds the length. -/
def insertAt : List α → Nat → α → List α
  | l, 0, a => a :: l
  | [], _ + 1, a => [a]
  | x :: xs, n + 1, a => x :: insertAt xs n a

/-! ### Date conversion

`utils.convert_date` delegates parsing to the external `dateutil`
library and formats the result with `strftime('%Y%m%d')`.  The model
below reproduces that external collaborator's documented behaviour on
the ordinal English dates the tool feeds it (`'1st January 2024'`):
day with ordinal suffix, English month name, four-digit year.  An
unparseable string yields `none`, standing for the propagated
`ParserError`. -/

/-- English month name to month number, as resolved by the external
date parser. -/
def monthNumber : String → Option Nat
  | "January" => some 1
  | "February" => some 2
  | "March" => some 3
  | "April" => some 4
  | "May" => some 5
  | "June" => some 6
  | "July" => some 7
  | "August" => some 8
  | "September" => some 9
  | "October" => some 10
  | "November" => some 11
  | "December" => some 12
  | _ => none

/-- Digit characters to their numeric value (`none` when any character
is not a decimal digit or the token is empty). -/
def digitsToNat? (cs : List Char) : Option Nat :=
  if cs = [] then none
  else if cs.all Char.isDigit then
    some (cs.foldl (fun acc c => acc * 10 + (c.toNat - 48)) 0)
  else none

/-- Leading digits of an ordinal day token (`"1st"` ↦ `['1']`). -/
def leadingDigits (s : String) : List Char :=
  s.toList.takeWhile Char.isDigit

/-- Split a string on single spaces (Python `str.split(' ')` without
collapsing, which is all the date format needs). -/
def splitWords (s : String) : List String :=
  (splitCharsOn ' ' s.toList).map String.mk

/-- Zero-pad a number below 100 to two digits, as `strftime` does for
`%m` and `%d`. -/
def pad2 (n : Nat) : String :=
  if n < 10 then "0" ++ toString n else toString n

/-- `utils.convert_date`: `'1st January 2024'` becomes `'20240101'`.
Models `dateutil.parser.parse` followed by `strftime('%Y%m%d')` on the
ordinal-English date format used throughout the repository. -/
def convert_date (input_date : String) : Option String :=
  match splitWords input_date with
  | [d, m, y] =>
    match digitsToNat? (leadingDigits d), monthNumber m, digitsToNat? y.toList with
    | some dn, some mn, some yn =>
      if 0 < dn ∧ dn ≤ 31 ∧ 1000 ≤ yn ∧ yn ≤ 9999 then
        some (toString yn ++ pad2 mn ++ pad2 dn)
      else none
    | _, _, _ => none
  | _ => none

/-! ### The renderer (`generate_asciidoc`) -/

def CHILD_PAGES_MARKER : String :=
  "=== Child pages (hotfixes, MCP Patches, Regression Considerations & JIRAs closed, other relevant info):"

def CLOUD_JIRA_URL : String :=
  "https://ciena-cloudjira-rd-it.atlassian.net/browse"

/-- The list-item line emitted for a ticket held by a section or
subsection. -/
def ticket_link_line (t : Ticket) : String :=
  "* " ++ t.title ++ ": " ++ CLOUD_JIRA_URL ++ "/RD-" ++ toString t.id
    ++ "[(RD-" ++ toString t.id ++ ") " ++ t.title ++ "].\n"

/-- The link text for one ticket inside a highlight line (no leading
bullet, no trailing period). -/
def highlight_link_text (t : Ticket) : String :=
  t.title ++ ": " ++ CLOUD_JIRA_URL ++ "/RD-" ++ toString t.id
    ++ "[(RD-" ++ toString t.id ++ ") " ++ t.title ++ "]"

/-- Inner loop of the highlight-ticket comprehension: for each
subsection take `subsection['tickets']` (a `KeyError` when the key is
missing) and keep the tickets whose `highlight_id` equals the
highlight id, left to right, extending the accumulator. -/
def collectSubTickets (hid : Nat) : List Sec → List Ticket → Except String (List Ticket)
  | [], acc => .ok acc
  | sub :: subs, acc =>
    match sub.tickets with
    | none => .error "KeyError: tickets"
    | some ts =>
      collectSubTickets hid subs (acc ++ ts.filter (fun t => t.highlight_id == some hid))

/-- The comprehension of `generate_asciidoc` lines 42-45: it ranges over
every top-level section that has a `'subsections'` key and over that
section's subsections — tickets held directly by a top-level section
are never inspected. -/
def highlight_tickets_for (hid : Nat) : List Sec → List Ticket → Except String (List Ticket)
  | [], acc => .ok acc
  | s :: ss, acc =>
    match s.subsections with
    | none => highlight_tickets_for hid ss acc
    | some subs =>
      match collectSubTickets hid subs acc with
      | .error e => .error e
      | .ok acc2 => highlight_tickets_for hid ss acc2

/-- Render one highlight: join the collected links with `', '` and emit
the line only when the joined string is non-empty (Python truthiness of
`ticket_links`). -/
def render_highlight (sections : List Sec) (h : Highlight) : Except String (List String) :=
  match highlight_tickets_for h.id sections [] with
  | .error e => .error e
  | .ok hts =>
    let ticket_links := join_with ", " (hts.map highlight_link_text)
    if ticket_links = "" then .ok []
    else .ok ["* " ++ h.title ++ " [" ++ ticket_links ++ "].\n"]

/-- Render one subsection (lines 53-61): `subsection['tickets']` is
accessed directly, so a missing key raises; the heading is emitted
whether or not the ticket list is empty. -/
def render_subsection (sub : Sec) : Except String (List String) :=
  match sub.tickets with
  | none => .error "KeyError: tickets"
  | some ts =>
    if ts ≠ [] then .ok (("==== " ++ sub.name ++ ":\n") :: ts.map ticket_link_line)
    else .ok ["==== " ++ sub.name ++ ":\n"]

def render_subsections : List Sec → Except String (List String)
  | [] => .ok []
  | sub :: subs =>
    match render_subsection sub with
    | .error e => .error e
    | .ok ls =>
      match render_subsections subs with
      | .error e => .error e
      | .ok ls2 => .ok (ls ++ ls2)

def render_highlights (all_sections : List Sec) : List Highlight → Except String (List String)
  | [] => .ok []
  | h :: hs =>
    match render_highlight all_sections h with
    | .error e => .error e
    | .ok ls =>
      match render_highlights all_sections hs with
      | .error e => .error e
      | .ok ls2 => .ok (ls ++ ls2)

/-- Render one top-level section (lines 33-61): heading, then its own
tickets when the `'tickets'` key is present, then its highlight lines
when the `'highlights'` key is present, then its subsections when the
`'subsections'` key is present. -/
def render_section (all_sections : List Sec) (sec : Sec) : Except String (List String) :=
  let tick_lines : List String :=
    match sec.tickets with
    | some ts => ts.map ticket_link_line
    | none => []
  match (match sec.highlights with
         | some hs => render_highlights all_sections hs
         | none => .ok []) with
  | .error e => .error e
  | .ok hl_lines =>
    match (match sec.subsections with
           | some subs => render_subsections subs
           | none => .ok []) with
    | .error e => .error e
    | .ok sub_lines =>
      .ok ((("=== " ++ sec.name ++ ":\n") :: tick_lines) ++ hl_lines ++ sub_lines)

def render_sections (all_sections : List Sec) : List Sec → Except String (List String)
  | [] => .ok []
  | s :: ss =>
    match render_section all_sections s with
    | .error e => .error e
    | .ok ls =>
      match render_sections all_sections ss with
      | .error e => .error e
      | .ok ls2 => .ok (ls ++ ls2)

/-- Render one patch block (lines 66-77): heading with the converted
date and the patch number, boilerplate, one plain-title bullet per
ticket, a fixed sentence, one link bullet per ticket; the block is the
newline join of those pieces.  An unparseable date propagates the
external parser's error. -/
def render_patch (version : String) (p : Patch) : Except String String :=
  match convert_date p.release_date with
  | none => .error "DateParseError"
  | some d =>
    .ok (join_with "\n"
      (["\n=== CDE-Release-" ++ version ++ "-patch-" ++ d ++ " (" ++ p.number ++ ")",
        "\n==== General Description",
        "\nThis patch was declared Generally Available on " ++ p.release_date
          ++ ". This patch is now supported on CDE to provide the following:\n"]
       ++ p.tickets.map (fun t => "* " ++ t.title ++ "\n")
       ++ ["Relevant Jira tickets are listed below:\n"]
       ++ p.tickets.map (fun t =>
            "* " ++ CLOUD_JIRA_URL ++ "/RD-" ++ toString t.id ++ "[(RD-"
              ++ toString t.id ++ ") " ++ t.title ++ "].\n")))

def render_patch_list (version : String) : List Patch → Except String (List String)
  | [] => .ok []
  | p :: ps =>
    match render_patch version p with
    | .error e => .error e
    | .ok b =>
      match render_patch_list version ps with
      | .error e => .error e
      | .ok bs => .ok (b :: bs)

/-- The `'patches' in release_notes_data` guard: no patch loop at all
when the key is absent. -/
def render_patches (version : String) : Option (List Patch) → Except String (List String)
  | none => .ok []
  | some ps => render_patch_list version ps

/-- The input record: a JSON object whose top-level keys may each be
absent.  `patches` is the only key the code guards with an `in` check. -/
structure ReleaseNotesData where
  cde_version : Option String
  release_date : Option String
  overview : Option String
  sections : Option (List Sec)
  patches : Option (List Patch)

/-- `generate_asciidoc`: the required keys are accessed in source
order (`cde_version` line 18, `release_date` line 26, `overview`
line 28, `sections` line 33), so the first missing one raises
`KeyError` before any output exists; the final document is the newline
join of the accumulated blocks. -/
def generate_asciidoc (d : ReleaseNotesData) : Except String String :=
  match d.cde_version with
  | none => .error "KeyError: cde_version"
  | some version =>
    match d.release_date with
    | none => .error "KeyError: release_date"
    | some release_date =>
      match d.overview with
      | none => .error "KeyError: overview"
      | some overview =>
        match d.sections with
        | none => .error "KeyError: sections"
        | some sections =>
          let version_dash :=
            String.mk (version.toList.map (fun c => if c = '.' then '-' else c))
          let header : List String :=
            ["# CDE User Guide",
             "include::ROOT:partial$attributes.adoc[]\n",
             "[[cde-release-" ++ version_dash ++ "]]",
             "== CDE-Release-" ++ version ++ "\n",
             "=== GA Milestone:\n",
             release_date ++ "\n",
             "=== Release Overview:\n",
             overview ++ "\n"]
          match render_sections sections sections with
          | .error e => .error e
          | .ok sec_lines =>
            match render_patches version d.patches with
            | .error e => .error e
            | .ok patch_blocks =>
              .ok (join_with "\n"
                (header ++ sec_lines ++ [CHILD_PAGES_MARKER ++ "\n\n***"] ++ patch_blocks))

/-! ### The index updater (`update_antora_structure`)

The two artifacts are modelled by their in-memory contents: the
backlink file as one string (the code does a substring check on the
whole `file.read()` and appends at the end), the manifest as its
`readlines()` list. -/

def HOW_TO_SENTINEL : String := "- how-to-guides.adoc"

def release_notes_line (cde_version asciidoc_file_name : String) : String :=
  "\n* xref:releases/" ++ asciidoc_file_name ++ "[CDE-Release-" ++ cde_version ++ "]"

def meta_yml_line (asciidoc_file_name : String) : String :=
  "    - releases/" ++ asciidoc_file_name ++ "\n"

/-- Update of `release-notes.adoc`: append the xref line unless it
already occurs as a substring of the file content. -/
def update_release_notes_doc (cde_version asciidoc_file_name : String) (content : String) : String :=
  let line := release_notes_line cde_version asciidoc_file_name
  if containsStr line content then content else content ++ line

/-- First index of a manifest line containing the sentinel, the
`next(i for i, line in enumerate(lines) if '- how-to-guides.adoc' in line)`
of the Python; `none` models the `StopIteration` when the sentinel is
absent. -/
def sentinel_idx (lines : List String) : Option Nat :=
  lines.findIdx? (fun l => containsStr HOW_TO_SENTINEL l)

/-- Update of `meta.yml`: no-op when the exact line is already present,
otherwise insert it immediately before the sentinel line; `none` when
the sentinel is missing (uncaught `StopIteration`). -/
def update_meta_yml (asciidoc_file_name : String) (lines : List String) : Option (List String) :=
  let line := meta_yml_line asciidoc_file_name
  if line ∈ lines then some lines
  else
    match sentinel_idx lines with
    | none => none
    | some i => some (insertAt lines i line)

/-- State of the two index artifacts. -/
structure AntoraState where
  release_notes_adoc : String
  meta_yml : List String

/-- `update_antora_structure`: the backlink file is rewritten first,
then the manifest; a missing sentinel aborts only the manifest half
(the Python raises after the adoc write). -/
def update_antora_structure (cde_version asciidoc_file_name : String) (st : AntoraState) :
    String × Option (List String) :=
  (update_release_notes_doc cde_version asciidoc_file_name st.release_notes_adoc,
   update_meta_yml asciidoc_file_name st.meta_yml)

/-! ### Specification-side notions for path navigation -/

/-- `s` is the first node named `n` in the sibling list `level`. -/
def FirstNamed (level : List Sec) (n : String) (s : Sec) : Prop :=
  ∃ pre post, level = pre ++ s :: post ∧ s.name = n ∧ ∀ x ∈ pre, x.name ≠ n

/-- Declarative descent: the non-empty path resolves to `r`, taking the
first name match at every level and the (possibly absent, defaulted to
empty) subsections list for the next level. -/
inductive ResolvesTo : List Sec → List String → Sec → Prop where
  | last {level n s} : FirstNamed level n s → ResolvesTo level [n] s
  | descend {level n s rest r} : FirstNamed level n s →
      ResolvesTo (s.subsections.getD []) rest r → ResolvesTo level (n :: rest) r

/-- Declarative failure: the descent gets stuck exactly at segment `m`
(every earlier segment had a first match). -/
inductive MissingAt : List Sec → List String → String → Prop where
  | here {level n rest} : (∀ x ∈ level, x.name ≠ n) → MissingAt level (n :: rest) n
  | there {level n s rest m} : FirstNamed level n s →
      MissingAt (s.subsections.getD []) rest m → MissingAt level (n :: rest) m

theorem find?_name_eq_some_iff (level : List Sec) (n : String) (s : Sec) :
    level.find? (fun x => x.name == n) = some s ↔ FirstNamed level n s := by
  induction level with
  | nil => simp [FirstNamed]
  | cons x xs ih =>
    by_cases hx : x.name = n
    · rw [List.find?_cons_of_pos _ (by simpa using hx)]
      constructor
      · intro h
        injection h with h
        subst h
        exact ⟨[], xs, rfl, hx, by simp⟩
      · rintro ⟨pre, post, heq, hs, hpre⟩
        cases pre with
        | nil =>
          simp only [List.nil_append, List.cons.injEq] at heq
          rw [heq.1]
        | cons p ps =>
          simp only [List.cons_append, List.cons.injEq] at heq
          exact absurd (heq.1 ▸ hx) (hpre p (by simp))
    · rw [List.find?_cons_of_neg _ (by simpa using hx)]
      rw [ih]
      constructor
      · rintro ⟨pre, post, heq, hs, hpre⟩
        refine ⟨x :: pre, post, by simp [heq], hs, ?_⟩
        intro y hy
        rcases List.mem_cons.mp hy with h | h
        · exact h ▸ hx
        · exact hpre y h
      · rintro ⟨pre, post, heq, hs, hpre⟩
        cases pre with
        | nil =>
          simp only [List.nil_append, List.cons.injEq] at heq
          exact absurd (heq.1 ▸ hs) hx
        | cons p ps =>
          simp only [List.cons_append, List.cons.injEq] at heq
          exact ⟨ps, post, heq.2, hs, fun y hy => hpre y (by simp [hy])⟩

theorem find?_name_eq_none_iff (level : List Sec) (n : String) :
    level.find? (fun x => x.name == n) = none ↔ ∀ x ∈ level, x.name ≠ n := by
  rw [List.find?_eq_none]
  simp

theorem firstNamed_unique {level : List Sec} {n : String} {s s' : Sec}
    (h : FirstNamed level n s) (h' : FirstNamed level n s') : s = s' := by
  have hs := (find?_name_eq_some_iff level n s).mpr h
  have hs' := (find?_name_eq_some_iff level n s').mpr h'
  rw [hs] at hs'
  injection hs'

theorem section_not_found_msg_inj {a b : String}
    (h : section_not_found_msg a = section_not_found_msg b) : a = b := by
  unfold section_not_found_msg at h
  have hd := congrArg String.data h
  simp only [String.data_append, List.append_assoc] at hd
  exact String.ext (List.append_cancel_right (List.append_cancel_left hd))

def c7_bNode : Sec := Sec.mk "B" (some []) none none

def c7_tree : List Sec := [Sec.mk "A" (some []) none (some [c7_bNode])]

/-- C7: `find_section` succeeds on a non-empty path exactly when the
descent by first-name match resolves (returning the node at the full
path), and fails exactly with a section-not-found error naming the
first segment missing at its level.  The embedding is a pure read of
the tree, as is the Python function, which never writes. -/
theorem c7_find_section_correct :
    ∀ (path : List String) (level : List Sec), path ≠ [] →
      (∀ s, find_section level path = Except.ok s ↔ ResolvesTo level path s) ∧
      (∀ m, find_section level path = Except.error (section_not_found_msg m) ↔
        MissingAt level path m) := by
  intro path
  induction path with
  | nil => intro _ h; exact absurd rfl h
  | cons n rest ih =>
    intro level _
    cases rest with
    | nil =>
      constructor
      · intro s
        rcases hf : level.find? (fun x => x.name == n) with _ | s'
        · simp only [find_section, hf]
          constructor
          · intro h; exact Except.noConfusion h
          · intro h
            cases h with
            | last hfn =>
              have hsome := (find?_name_eq_some_iff level n s).mpr hfn
              rw [hf] at hsome
              exact Option.noConfusion hsome
            | descend _ hres => cases hres
        · simp only [find_section, hf]
          constructor
          · intro h
            injection h with h
            subst h
            exact .last ((find?_name_eq_some_iff level n s').mp hf)
          · intro h
            cases h with
            | last hfn =>
              exact congrArg Except.ok
                (firstNamed_unique ((find?_name_eq_some_iff level n s').mp hf) hfn)
            | descend _ hres => cases hres
      · intro m
        rcases hf : level.find? (fun x => x.name == n) with _ | s'
        · simp only [find_section, hf]
          rw [find?_name_eq_none_iff] at hf
          constructor
          · intro h
            injection h with h
            have hnm := section_not_found_msg_inj h
            subst hnm
            exact .here hf
          · intro h
            cases h with
            | here _ => rfl
            | there hfn _ =>
              obtain ⟨pre, post, heq, hs, _⟩ := hfn
              exact absurd hs (hf _ (by rw [heq]; simp))
        · simp only [find_section, hf]
          constructor
          · intro h; exact Except.noConfusion h
          · intro h
            cases h with
            | here hall =>
              obtain ⟨pre, post, heq, hs, _⟩ := (find?_name_eq_some_iff level n s').mp hf
              exact absurd hs (hall _ (by rw [heq]; simp))
            | there _ hmiss => cases hmiss
    | cons n2 rest2 =>
      constructor
      · intro s
        rcases hf : level.find? (fun x => x.name == n) with _ | s'
        · simp only [find_section, hf]
          constructor
          · intro h; exact Except.noConfusion h
          · intro h
            rw [find?_name_eq_none_iff] at hf
            cases h with
            | descend hfn _ =>
              obtain ⟨pre, post, heq, hs, _⟩ := hfn
              exact absurd hs (hf _ (by rw [heq]; simp))
        · simp only [find_section, hf]
          rw [(ih (s'.subsections.getD []) (by simp)).1 s]
          constructor
          · intro h
            exact .descend ((find?_name_eq_some_iff level n s').mp hf) h
          · intro h
            cases h with
            | descend hfn hres =>
              rw [firstNamed_unique ((find?_name_eq_some_iff level n s').mp hf) hfn]
              exact hres
      · intro m
        rcases hf : level.find? (fun x => x.name == n) with _ | s'
        · simp only [find_section, hf]
          rw [find?_name_eq_none_iff] at hf
          constructor
          · intro h
            injection h with h
            have hnm := section_not_found_msg_inj h
            subst hnm
            exact .here hf
          · intro h
            cases h with
            | here _ => rfl
            | there hfn _ =>
              obtain ⟨pre, post, heq, hs, _⟩ := hfn
              exact absurd hs (hf _ (by rw [heq]; simp))
        · simp only [find_section, hf]
          rw [(ih (s'.subsections.getD []) (by simp)).2 m]
          constructor
          · intro h
            exact .there ((find?_name_eq_some_iff level n s').mp hf) h
          · intro h
            cases h with
            | here hall =>
              obtain ⟨pre, post, heq, hs, _⟩ := (find?_name_eq_some_iff level n s').mp hf
              exact absurd hs (hall _ (by rw [heq]; simp))
            | there hfn hmiss =>
              rw [firstNamed_unique ((find?_name_eq_some_iff level n s').mp hf) hfn]
              exact hmiss

/-- Witness for C7 at the tree of the claim: section `A` with
subsection `B`; `["A","B"]` resolves to the `B` node and `["A","Z"]`
gets stuck at `"Z"`. -/
theorem c7_find_section_correct_witness :
    ResolvesTo c7_tree ["A", "B"] c7_bNode ∧ MissingAt c7_tree ["A", "Z"] "Z" :=
  ⟨((c7_find_section_correct ["A", "B"] c7_tree (by simp)).1 c7_bNode).mp rfl,
   ((c7_find_section_correct ["A", "Z"] c7_tree (by simp)).2 "Z").mp rfl⟩

theorem ticket_exists_iff_mem_allTickets :
    ∀ (secs : List Sec) (tid : Nat),
      ticket_exists secs tid = true ↔ ∃ t ∈ allTickets secs, t.id = tid
  | [], tid => by simp [ticket_exists, allTickets]
  | .mk n t h (some subs) :: rest, tid => by
    rw [ticket_exists, allTickets]
    simp only [Bool.or_eq_true, List.any_eq_true, beq_iff_eq, List.mem_append,
      ticket_exists_iff_mem_allTickets subs tid,
      ticket_exists_iff_mem_allTickets rest tid]
    constructor
    · rintro ((⟨x, hx, hid⟩ | ⟨x, hx, hid⟩) | ⟨x, hx, hid⟩)
      · exact ⟨x, Or.inl hx, hid⟩
      · exact ⟨x, Or.inr (Or.inl hx), hid⟩
      · exact ⟨x, Or.inr (Or.inr hx), hid⟩
    · rintro ⟨x, (hx | hx | hx), hid⟩
      · exact Or.inl (Or.inl ⟨x, hx, hid⟩)
      · exact Or.inl (Or.inr ⟨x, hx, hid⟩)
      · exact Or.inr ⟨x, hx, hid⟩
  | .mk n t h none :: rest, tid => by
    rw [ticket_exists, allTickets]
    simp only [Bool.or_eq_true, List.any_eq_true, beq_iff_eq, List.mem_append,
      ticket_exists_iff_mem_allTickets rest tid]
    constructor
    · rintro (⟨x, hx, hid⟩ | ⟨x, hx, hid⟩)
      · exact ⟨x, Or.inl hx, hid⟩
      · exact ⟨x, Or.inr hx, hid⟩
    · rintro ⟨x, (hx | hx), hid⟩
      · exact Or.inl ⟨x, hx, hid⟩
      · exact Or.inr ⟨x, hx, hid⟩

/-- A tree carrying ticket 42 only inside a third-level subsection. -/
def c8_deep_tree : List Sec :=
  [Sec.mk "A" (some []) none
    (some [Sec.mk "B" none none
      (some [Sec.mk "C" (some [Ticket.mk 42 "deep ticket" none]) none none])])]

/-- A tree with tickets at several levels, none with id 42. -/
def c8_no42_tree : List Sec :=
  [Sec.mk "A" (some [Ticket.mk 1 "t1" none]) none
    (some [Sec.mk "B" (some [Ticket.mk 2 "t2" none]) none none])]

/-- C8: `ticket_exists` decides the existence of a ticket with the
given id anywhere in the tree, at any section or subsection depth; in
particular it is true on a tree whose only 42-ticket sits in a
third-level subsection, and false on a tree with no 42-ticket. -/
theorem c8_ticket_exists_decides_occurrence :
    (∀ (secs : List Sec) (tid : Nat),
      ticket_exists secs tid = true ↔ ∃ t ∈ allTickets secs, t.id = tid) ∧
    ticket_exists c8_deep_tree 42 = true ∧
    ticket_exists c8_no42_tree 42 = false :=
  ⟨ticket_exists_iff_mem_allTickets,
   by simp [c8_deep_tree, ticket_exists],
   by simp [c8_no42_tree, ticket_exists]⟩

/-! ### C4 / C5: required top-level keys -/

/-- `k` is a top-level key of the record that is absent. -/
def topKeyAbsent (d : ReleaseNotesData) (k : String) : Prop :=
  (k = "cde_version" ∧ d.cde_version = none) ∨
  (k = "release_date" ∧ d.release_date = none) ∨
  (k = "overview" ∧ d.overview = none) ∨
  (k = "sections" ∧ d.sections = none)

/-- C4: a record missing `cde_version`, `overview` or `sections` makes
the renderer fail with a `KeyError` naming a key that is indeed absent
from the record (the first absent one in the code's access order, which
may be `release_date` when that is also missing), and the error result
carries no document at all, so nothing partial is ever written. -/
theorem c4_missing_required_key_fails (d : ReleaseNotesData)
    (h : d.cde_version = none ∨ d.overview = none ∨ d.sections = none) :
    ∃ k, generate_asciidoc d = Except.error ("KeyError: " ++ k) ∧ topKeyAbsent d k := by
  obtain ⟨cv, rd, ov, secs, pats⟩ := d
  cases cv with
  | none => exact ⟨"cde_version", rfl, Or.inl ⟨rfl, rfl⟩⟩
  | some v =>
    cases rd with
    | none => exact ⟨"release_date", rfl, Or.inr (Or.inl ⟨rfl, rfl⟩)⟩
    | some r =>
      cases ov with
      | none => exact ⟨"overview", rfl, Or.inr (Or.inr (Or.inl ⟨rfl, rfl⟩))⟩
      | some o =>
        cases secs with
        | none => exact ⟨"sections", rfl, Or.inr (Or.inr (Or.inr ⟨rfl, rfl⟩))⟩
        | some ss =>
          rcases h with h | h | h <;> exact Option.noConfusion h

/-- Witness for C4: the all-absent record fails on `cde_version`. -/
theorem c4_missing_required_key_fails_witness :
    ∃ k, generate_asciidoc (ReleaseNotesData.mk none none none none none)
        = Except.error ("KeyError: " ++ k) ∧
      topKeyAbsent (ReleaseNotesData.mk none none none none none) k :=
  c4_missing_required_key_fails (ReleaseNotesData.mk none none none none none) (Or.inl rfl)

/-- A record identical to the claim's scenario except that the
`release_date` key is absent. -/
def c5_absent_record : ReleaseNotesData :=
  ReleaseNotesData.mk (some "2.6.0") none (some "Initial overview.") (some []) none

/-- A record whose `release_date` value is the placeholder string
`"TBD"`. -/
def c5_tbd_record : ReleaseNotesData :=
  ReleaseNotesData.mk (some "2.6.0") (some "TBD") (some "Initial overview.") (some []) none

/-- C5 counterexample: with the `release_date` key absent the renderer
does not succeed with a placeholder — it fails with a `KeyError`, so
no `GA Milestone` block (or any output) is produced. -/
theorem c5_counterexample :
    generate_asciidoc c5_absent_record = Except.error "KeyError: release_date" := rfl

set_option maxRecDepth 100000 in
/-- C5 amended: the renderer reads `release_date` unconditionally: when
the key is absent it fails with a `KeyError` naming it (first conjunct,
for any record whose version key is present), and when the key holds a
placeholder string such as `"TBD"` the `GA Milestone` block simply
carries that string verbatim (second conjunct). -/
theorem c5_release_date_required :
    (∀ (v : String) (ov : Option String) (secs : Option (List Sec))
        (pats : Option (List Patch)),
      generate_asciidoc (ReleaseNotesData.mk (some v) none ov secs pats)
        = Except.error "KeyError: release_date") ∧
    (generate_asciidoc c5_tbd_record).toOption.map
      (fun doc => containsStr "=== GA Milestone:\n\nTBD\n" doc) = some true := by
  constructor
  · intro v ov secs pats
    rfl
  · decide

/-! ### C2: end-to-end substring scenario -/

/-- The record of the claim: version `2.6.0`, one section `Features`
holding ticket `{id: 100, title: "Add X"}` (with an arbitrary date and
overview, which the claim leaves unspecified but the code requires). -/
def c2_record : ReleaseNotesData :=
  ReleaseNotesData.mk (some "2.6.0") (some "15th March 2024") (some "Initial overview.")
    (some [Sec.mk "Features" (some [Ticket.mk 100 "Add X" none]) none none]) none

set_option maxRecDepth 100000 in
/-- C2 counterexample: the rendered document does contain all three
substrings, but the first occurrence of `CDE-Release-2.6.0` is *not*
before the first occurrence of `cde-release-2-6-0`: the anchor line
`[[cde-release-2-6-0]]` is emitted before the heading. -/
theorem c2_counterexample :
    (generate_asciidoc c2_record).toOption.map (fun doc =>
      containsStr "CDE-Release-2.6.0" doc && containsStr "cde-release-2-6-0" doc
        && containsStr "RD-100" doc) = some true ∧
    (generate_asciidoc c2_record).toOption.map (fun doc =>
      firstOccursBefore "CDE-Release-2.6.0" "cde-release-2-6-0" doc) = some false := by
  exact ⟨by decide, by decide⟩

set_option maxRecDepth 100000 in
/-- C2 amended: rendering the claim's record succeeds and the document
contains `cde-release-2-6-0`, `CDE-Release-2.6.0` and `RD-100`, whose
first occurrences appear in *that* relative order (anchor before
heading before ticket link). -/
theorem c2_end_to_end_order :
    (generate_asciidoc c2_record).toOption.map (fun doc =>
      containsStr "CDE-Release-2.6.0" doc && containsStr "cde-release-2-6-0" doc
        && containsStr "RD-100" doc) = some true ∧
    (generate_asciidoc c2_record).toOption.map (fun doc =>
      firstOccursBefore "cde-release-2-6-0" "CDE-Release-2.6.0" doc) = some true ∧
    (generate_asciidoc c2_record).toOption.map (fun doc =>
      firstOccursBefore "CDE-Release-2.6.0" "RD-100" doc) = some true := by
  exact ⟨by decide, by decide, by decide⟩

/-! ### C9: patch rendering -/

/-- A record with no sections and one patch, as in the claim: date
`1st January 2024`, number `P1`, a single ticket. -/
def c9_record : ReleaseNotesData :=
  ReleaseNotesData.mk (some "2.6.0") (some "15th March 2024") (some "Initial overview.")
    (some [])
    (some [Patch.mk "P1" "1st January 2024" [Ticket.mk 7 "Fix Y" none]])

set_option maxRecDepth 100000 in
/-- C9: the patch heading carries the `YYYYMMDD` conversion of the date
and the patch number in parentheses, and the document's bullet lines
are exactly the plain-title bullet followed by the external-link
bullet for the patch's single ticket; `convert_date` maps
`1st January 2024` to `20240101`. -/
theorem c9_patch_rendering :
    (generate_asciidoc c9_record).toOption.map (fun doc =>
      containsStr "=== CDE-Release-2.6.0-patch-20240101 (P1)" doc) = some true ∧
    (generate_asciidoc c9_record).toOption.map (fun doc =>
      (splitLines doc).filter (fun l => "* ".toList.isPrefixOf l.toList))
      = some ["* Fix Y",
              "* https://ciena-cloudjira-rd-it.atlassian.net/browse/RD-7[(RD-7) Fix Y]."] ∧
    convert_date "1st January 2024" = some "20240101" := by
  exact ⟨by decide, by decide, by decide⟩

/-! ### C1: highlight ticket collection -/

/-- The tickets the comprehension can ever see: only those held by
subsections of top-level sections, in document order. -/
def subLevelTickets (sections : List Sec) : List Ticket :=
  sections.flatMap (fun s => (s.subsections.getD []).flatMap (fun sub => sub.tickets.getD []))

/-- The subsection-level tickets whose `highlight_id` equals `hid`. -/
def matchingSubTickets (sections : List Sec) (hid : Nat) : List Ticket :=
  (subLevelTickets sections).filter (fun t => t.highlight_id == some hid)

theorem collectSubTickets_ok (hid : Nat) :
    ∀ (subs : List Sec) (acc : List Ticket),
      (∀ sub ∈ subs, (Sec.tickets sub).isSome = true) →
      collectSubTickets hid subs acc
        = .ok (acc ++ (subs.flatMap (fun sub => sub.tickets.getD [])).filter
            (fun t => t.highlight_id == some hid))
  | [], acc, _ => by simp [collectSubTickets]
  | Sec.mk n none hl ss :: subs, acc, h => by
    exact absurd (h (Sec.mk n none hl ss) (by simp)) (by simp [Sec.tickets])
  | Sec.mk n (some ts) hl ss :: subs, acc, h => by
    rw [show collectSubTickets hid (Sec.mk n (some ts) hl ss :: subs) acc
        = collectSubTickets hid subs
            (acc ++ ts.filter (fun t => t.highlight_id == some hid)) from rfl]
    rw [collectSubTickets_ok hid subs _ (fun x hx => h x (by simp [hx]))]
    simp [List.flatMap_cons, List.filter_append, Sec.tickets]

theorem highlight_tickets_for_ok (hid : Nat) :
    ∀ (all : List Sec) (acc : List Ticket),
      (∀ s ∈ all, ∀ sub ∈ s.subsections.getD [], (Sec.tickets sub).isSome = true) →
      highlight_tickets_for hid all acc = .ok (acc ++ matchingSubTickets all hid)
  | [], acc, _ => by simp [highlight_tickets_for, matchingSubTickets, subLevelTickets]
  | Sec.mk n t hl none :: ss, acc, h => by
    rw [show highlight_tickets_for hid (Sec.mk n t hl none :: ss) acc
        = highlight_tickets_for hid ss acc from rfl]
    rw [highlight_tickets_for_ok hid ss acc (fun x hx => h x (by simp [hx]))]
    simp [matchingSubTickets, subLevelTickets, List.flatMap_cons, Sec.subsections]
  | Sec.mk n t hl (some subs) :: ss, acc, h => by
    have hsubs : ∀ sub ∈ subs, (Sec.tickets sub).isSome = true := by
      intro x hx
      exact h (Sec.mk n t hl (some subs)) (by simp) x (by simp [Sec.subsections, hx])
    rw [show highlight_tickets_for hid (Sec.mk n t hl (some subs) :: ss) acc
        = (match collectSubTickets hid subs acc with
           | .error e => .error e
           | .ok acc2 => highlight_tickets_for hid ss acc2) from rfl]
    rw [collectSubTickets_ok hid subs acc hsubs]
    rw [show (match (Except.ok
          (acc ++ (subs.flatMap (fun sub => sub.tickets.getD [])).filter
            (fun tk => tk.highlight_id == some hid)) : Except String (List Ticket)) with
           | .error e => .error e
           | .ok acc2 => highlight_tickets_for hid ss acc2)
        = highlight_tickets_for hid ss
            (acc ++ (subs.flatMap (fun sub => sub.tickets.getD [])).filter
              (fun tk => tk.highlight_id == some hid)) from rfl]
    rw [highlight_tickets_for_ok hid ss _ (fun x hx => h x (by simp [hx]))]
    simp [matchingSubTickets, subLevelTickets, List.flatMap_cons, Sec.subsections,
      List.filter_append, List.append_assoc]

theorem join_with_length_cons (sep x : String) :
    ∀ xs, x.length ≤ (join_with sep (x :: xs)).length
  | [] => le_refl _
  | y :: ys => by
    simp only [join_with, String.length_append]
    omega

theorem highlight_link_text_length_pos (t : Ticket) :
    0 < (highlight_link_text t).length := by
  unfold highlight_link_text
  simp only [String.length_append]
  have h1 : 0 < ("]" : String).length := by decide
  omega

theorem join_highlight_links_ne_empty {hts : List Ticket} (h : hts ≠ []) :
    join_with ", " (hts.map highlight_link_text) ≠ "" := by
  cases hts with
  | nil => exact absurd rfl h
  | cons t ts =>
    intro hemp
    have hlen : (join_with ", " (List.map highlight_link_text (t :: ts))).length = 0 := by
      rw [hemp]
      rfl
    rw [List.map_cons] at hlen
    have h1 := join_with_length_cons ", " (highlight_link_text t) (ts.map highlight_link_text)
    have h2 := highlight_link_text_length_pos t
    omega

theorem render_highlight_eq (sections : List Sec) (h : Highlight)
    (hw : ∀ s ∈ sections, ∀ sub ∈ s.subsections.getD [], (Sec.tickets sub).isSome = true) :
    render_highlight sections h =
      .ok (if matchingSubTickets sections h.id = [] then []
           else ["* " ++ h.title ++ " [" ++ join_with ", "
             ((matchingSubTickets sections h.id).map highlight_link_text) ++ "].\n"]) := by
  unfold render_highlight
  rw [highlight_tickets_for_ok h.id sections [] hw]
  simp only [List.nil_append]
  by_cases hm : matchingSubTickets sections h.id = []
  · simp [hm, join_with]
  · rw [if_neg (join_highlight_links_ne_empty hm), if_neg hm]

/-- C1 amended: for every tree in which each subsection of a top-level
section carries a `tickets` key, the renderer's highlight scan collects
exactly the subsection-level tickets whose `highlight_id` equals the
highlight's id, in document order — tickets held directly by top-level
sections are never collected; the highlight line is dropped when that
collection is empty, and a collection with exactly one ticket yields a
line with exactly one rendered link (no `', '` join). -/
theorem c1_highlight_collection (sections : List Sec) (h : Highlight)
    (hw : ∀ s ∈ sections, ∀ sub ∈ s.subsections.getD [], (Sec.tickets sub).isSome = true) :
    highlight_tickets_for h.id sections [] = .ok (matchingSubTickets sections h.id) ∧
    (matchingSubTickets sections h.id = [] → render_highlight sections h = .ok []) ∧
    (matchingSubTickets sections h.id ≠ [] → render_highlight sections h
      = .ok ["* " ++ h.title ++ " [" ++ join_with ", "
          ((matchingSubTickets sections h.id).map highlight_link_text) ++ "].\n"]) ∧
    (∀ t, matchingSubTickets sections h.id = [t] → render_highlight sections h
      = .ok ["* " ++ h.title ++ " [" ++ highlight_link_text t ++ "].\n"]) := by
  refine ⟨by simpa using highlight_tickets_for_ok h.id sections [] hw, ?_, ?_, ?_⟩
  · intro hm
    rw [render_highlight_eq sections h hw, if_pos hm]
  · intro hm
    rw [render_highlight_eq sections h hw, if_neg hm]
  · intro t hm
    rw [render_highlight_eq sections h hw, if_neg (by simp [hm]), hm]
    simp [join_with]

/-- A tree whose only matching ticket sits inside a subsection. -/
def c1w_sections : List Sec :=
  [Sec.mk "Features" none none
    (some [Sec.mk "Sub" (some [Ticket.mk 5 "T" (some 9)]) none none])]

/-- Witness for C1 at a concrete tree with one matching subsection
ticket: the collection is that one ticket and the rendered line holds
exactly its link. -/
theorem c1_highlight_collection_witness :
    highlight_tickets_for 9 c1w_sections [] = .ok [Ticket.mk 5 "T" (some 9)] ∧
    render_highlight c1w_sections (Highlight.mk 9 "H")
      = .ok ["* H [" ++ highlight_link_text (Ticket.mk 5 "T" (some 9)) ++ "].\n"] := by
  have hc := c1_highlight_collection c1w_sections (Highlight.mk 9 "H") (by decide)
  constructor
  · rw [hc.1]
    rfl
  · have hone := hc.2.2.2 (Ticket.mk 5 "T" (some 9)) (by decide)
    rw [hone]
    rfl

/-- The claim's counter-scenario: the only ticket with a matching
`highlight_id` is held directly by the top-level section. -/
def c1_highlight : Highlight := Highlight.mk 1 "Faster pipelines"

def c1_sections : List Sec :=
  [Sec.mk "Features" (some [Ticket.mk 100 "Add X" (some 1)]) (some [c1_highlight]) none]

def c1_record : ReleaseNotesData :=
  ReleaseNotesData.mk (some "2.6.0") (some "15th March 2024") (some "Initial overview.")
    (some c1_sections) none

set_option maxRecDepth 100000 in
/-- C1 counterexample: a ticket with a matching `highlight_id` exists
in the tree (directly under the top-level section), yet the collection
comes back empty, no highlight line is emitted, and the full rendered
document never mentions the highlight's title — refuting "collects
from the entire tree, including tickets held directly by top-level
sections" and "one matching ticket anywhere produces a line". -/
theorem c1_counterexample :
    (∃ t ∈ allTickets c1_sections, t.highlight_id = some c1_highlight.id) ∧
    highlight_tickets_for c1_highlight.id c1_sections [] = .ok [] ∧
    render_highlight c1_sections c1_highlight = .ok [] ∧
    (generate_asciidoc c1_record).toOption.map
      (fun doc => containsStr "Faster pipelines" doc) = some false := by
  refine ⟨⟨Ticket.mk 100 "Add X" (some 1), ?_, rfl⟩, rfl, rfl, by decide⟩
  simp [c1_sections, allTickets]

/-! ### C3 / C10: getOrCreate (`create_section_hierarchy`) -/

/-- The chain of fresh nodes `create_section_hierarchy_aux` builds for
an all-new path when the subsections condition holds: each node gets
`tickets = []` and an (eventually populated) subsections list. -/
def freshChainTrue : List String → List Sec
  | [] => []
  | [n] => [Sec.mk n (some []) none (some [])]
  | n :: rest => [Sec.mk n (some []) none (some (freshChainTrue rest))]

/-- Last element of a name list (empty string for the empty list). -/
def lastName : List String → String
  | [] => ""
  | [n] => n
  | _ :: rest => lastName rest

theorem splitAtName_eq_some :
    ∀ (level : List Sec) (n : String) (pre post : List Sec) (s : Sec),
      splitAtName level n = some (pre, s, post) →
      level = pre ++ s :: post ∧ s.name = n ∧ ∀ x ∈ pre, x.name ≠ n
  | [], n, pre, post, s => by simp [splitAtName]
  | x :: xs, n, pre, post, s => by
    intro h
    rw [splitAtName] at h
    by_cases hx : x.name = n
    · rw [if_pos (by simpa using hx)] at h
      injection h with h
      injection h with h1 h
      injection h with h2 h3
      subst h1
      subst h2
      subst h3
      exact ⟨by simp, hx, by simp⟩
    · rw [if_neg (by simpa using hx)] at h
      rcases hs : splitAtName xs n with _ | ⟨pre2, s2, post2⟩
      · rw [hs] at h
        exact Option.noConfusion h
      · rw [hs] at h
        simp only [Option.map] at h
        injection h with h
        injection h with h1 h
        injection h with h2 h3
        subst h1
        subst h2
        subst h3
        obtain ⟨heq, hname, hpre⟩ := splitAtName_eq_some xs n pre2 post2 s2 hs
        refine ⟨by simp [heq], hname, ?_⟩
        intro y hy
        rcases List.mem_cons.mp hy with hy | hy
        · exact hy ▸ hx
        · exact hpre y hy

theorem aux_true_fresh :
    ∀ (names : List String), names ≠ [] →
      create_section_hierarchy_aux true [] names
        = (freshChainTrue names,
           some (Sec.mk (lastName names) (some []) none (some [])))
  | [], h => absurd rfl h
  | [n], _ => rfl
  | n :: m :: rest, _ => by
    rw [show create_section_hierarchy_aux true [] (n :: m :: rest)
        = ([] ++ [Sec.mk n (some []) none
            (some (create_section_hierarchy_aux true [] (m :: rest)).1)],
           (create_section_hierarchy_aux true [] (m :: rest)).2) from rfl]
    rw [aux_true_fresh (m :: rest) (by simp)]
    rfl

/-- C3 amended: in `create_section_hierarchy`, (i) a created singleton
leaf carries an empty subsections list exactly when the flag is true
(otherwise the field is omitted) and is appended after the existing
siblings; (ii) for a path of more than one segment the created chain and
its leaf always carry subsections lists — the Python condition is
`len(section_names) > 1 or include_subsections`, not the flag alone —
and every created node gets an empty tickets list, the new top node
being appended last; (iii) descending through a matched node that has a
subsections key rewrites only that node, leaving the earlier and later
siblings untouched; (iv) the match used at each level is
first-match-by-name. -/
theorem c3_create_section_hierarchy :
    (∀ (level : List Sec) (n : String) (flag : Bool),
      splitAtName level n = none →
      create_section_hierarchy level [n] flag
        = (level ++ [Sec.mk n (some []) none (if flag then some [] else none)],
           some (Sec.mk n (some []) none (if flag then some [] else none)))) ∧
    (∀ (level : List Sec) (n : String) (rest : List String) (flag : Bool),
      rest ≠ [] →
      splitAtName level n = none →
      create_section_hierarchy level (n :: rest) flag
        = (level ++ [Sec.mk n (some []) none (some (freshChainTrue rest))],
           some (Sec.mk (lastName rest) (some []) none (some [])))) ∧
    (∀ (a : Bool) (level pre post subs : List Sec) (s : Sec) (n n2 : String)
        (rest : List String),
      splitAtName level n = some (pre, s, post) →
      s.subsections = some subs →
      create_section_hierarchy_aux a level (n :: n2 :: rest)
        = (pre ++ [s.withSubsections
              (some (create_section_hierarchy_aux a subs (n2 :: rest)).1)] ++ post,
           (create_section_hierarchy_aux a subs (n2 :: rest)).2)) ∧
    (∀ (level : List Sec) (n : String) (pre post : List Sec) (s : Sec),
      splitAtName level n = some (pre, s, post) →
      level = pre ++ s :: post ∧ s.name = n ∧ ∀ x ∈ pre, x.name ≠ n) := by
  refine ⟨?_, ?_, ?_, fun level n pre post s => splitAtName_eq_some level n pre post s⟩
  · intro level n flag h
    have ha : (decide (1 < ([n] : List String).length) || flag) = flag := by simp
    rw [create_section_hierarchy, ha, create_section_hierarchy_aux, h]
  · intro level n rest flag hne h
    obtain ⟨m, rest2, rfl⟩ : ∃ m rest2, rest = m :: rest2 := by
      cases rest with
      | nil => exact absurd rfl hne
      | cons m rest2 => exact ⟨m, rest2, rfl⟩
    have ha : (decide (1 < (n :: m :: rest2 : List String).length) || flag) = true := by
      simp
    rw [create_section_hierarchy, ha, create_section_hierarchy_aux, h]
    simp only [if_true]
    rw [aux_true_fresh (m :: rest2) (by simp)]
  · intro a level pre post subs s n n2 rest hsplit hsubs
    simp only [create_section_hierarchy_aux, hsplit, hsubs]

/-- Witness for C3 at the counterexample's own input: a two-segment
all-new path with the flag false still creates the chain, appending
`A` to the empty root list, with the leaf `B` carrying empty tickets
and subsections lists. -/
theorem c3_create_section_hierarchy_witness :
    splitAtName [] "A" = none ∧
    create_section_hierarchy [] ["A", "B"] false
      = ([Sec.mk "A" (some []) none (some [Sec.mk "B" (some []) none (some [])])],
         some (Sec.mk "B" (some []) none (some []))) := by
  refine ⟨rfl, ?_⟩
  have h := c3_create_section_hierarchy.2.1 [] "A" ["B"] false (by simp) rfl
  rw [h]
  rfl

/-- C3 counterexample: with `include_subsections = false` and the
two-segment path `["A","B"]`, the created leaf still carries an
(empty) `subsections` list — the claim's "omits the subsections field
entirely when the flag is false" fails because the Python condition
also triggers on `len(section_names) > 1`. -/
theorem c3_counterexample :
    (create_section_hierarchy [] ["A", "B"] false).2
      = some (Sec.mk "B" (some []) none (some [])) ∧
    (create_section_hierarchy [] ["A", "B"] false).2.map Sec.subsections
      = some (some []) :=
  ⟨rfl, rfl⟩

/-- C10: when the matched node for a path segment has no `subsections`
key and segments remain, the recursion continues in a detached fresh
list: the tree level is returned entirely unchanged (first conjunct,
in general), and concretely a tree `[A]` without a subsections key is
left untouched by `getOrCreate(tree, ["A","B"])` while the returned
`B` node is a fresh section unreachable from the tree — looking the
path up afterwards still fails at `"B"`. -/
theorem c10_detached_creation :
    (∀ (a : Bool) (level pre post : List Sec) (s : Sec) (n n2 : String)
        (rest : List String),
      splitAtName level n = some (pre, s, post) →
      s.subsections = none →
      create_section_hierarchy_aux a level (n :: n2 :: rest)
        = (level, (create_section_hierarchy_aux a [] (n2 :: rest)).2)) ∧
    create_section_hierarchy [Sec.mk "A" (some []) none none] ["A", "B"] true
      = ([Sec.mk "A" (some []) none none], some (Sec.mk "B" (some []) none (some []))) ∧
    find_section [Sec.mk "A" (some []) none none] ["A", "B"]
      = Except.error (section_not_found_msg "B") := by
  refine ⟨?_, rfl, rfl⟩
  intro a level pre post s n n2 rest hsplit hsubs
  simp only [create_section_hierarchy_aux, hsplit, hsubs]

/-- Witness for C10: the general detachment equation applied at the
concrete one-node tree. -/
theorem c10_detached_creation_witness :
    create_section_hierarchy_aux true [Sec.mk "A" (some []) none none] ["A", "B"]
      = ([Sec.mk "A" (some []) none none],
         (create_section_hierarchy_aux true [] ["B"]).2) :=
  c10_detached_creation.1 true [Sec.mk "A" (some []) none none] []
    [] (Sec.mk "A" (some []) none none) "A" "B" [] rfl rfl

/-! ### C6: idempotence of the index updater -/

theorem firstOcc_isSome_iff (needle : List Char) :
    ∀ hay, (firstOcc needle hay).isSome = true ↔ needle <:+: hay
  | [] => by
    rw [firstOcc]
    by_cases h : needle = []
    · simp [h]
    · simp [h, List.infix_nil]
  | c :: rest => by
    rw [firstOcc]
    by_cases hpre : needle <+: c :: rest
    · rw [if_pos (List.isPrefixOf_iff_prefix.mpr hpre)]
      exact iff_of_true rfl hpre.isInfix
    · rw [if_neg (fun h => hpre (List.isPrefixOf_iff_prefix.mp h))]
      rw [List.infix_cons_iff, ← firstOcc_isSome_iff needle rest]
      cases firstOcc needle rest <;> simp [hpre]

theorem containsStr_append_right (line c : String) :
    containsStr line (c ++ line) = true := by
  unfold containsStr
  rw [firstOcc_isSome_iff]
  have hdata : (c ++ line).toList = c.toList ++ line.toList := rfl
  rw [hdata]
  exact (List.suffix_append c.toList line.toList).isInfix

theorem mem_insertAt_self {α : Type} (a : α) :
    ∀ (l : List α) (n : Nat), a ∈ insertAt l n a
  | l, 0 => by simp [insertAt]
  | [], n + 1 => by simp [insertAt]
  | x :: xs, n + 1 => by
    rw [insertAt]
    exact List.mem_cons.mpr (Or.inr (mem_insertAt_self a xs n))

theorem update_release_notes_doc_idem (v f c : String) :
    update_release_notes_doc v f (update_release_notes_doc v f c)
      = update_release_notes_doc v f c := by
  unfold update_release_notes_doc
  rcases h : containsStr (release_notes_line v f) c with _ | _
  · simp only [if_neg (by simp [h] : ¬ containsStr (release_notes_line v f) c = true)]
    rw [if_pos (containsStr_append_right (release_notes_line v f) c)]
  · simp only [if_pos h]

/-- C6: whenever the sentinel line is present in the manifest, the
updater succeeds, inserts the manifest line immediately before the
first sentinel line (when not already present, leaving the file alone
otherwise), and a second run with the same version and filename is a
no-op on both artifacts rather than an error. -/
theorem c6_update_antora_idempotent (v f : String) (st : AntoraState) (i : Nat)
    (hs : sentinel_idx st.meta_yml = some i) :
    ∃ m1, (update_antora_structure v f st).2 = some m1 ∧
      update_antora_structure v f
          (AntoraState.mk (update_antora_structure v f st).1 m1)
        = ((update_antora_structure v f st).1, some m1) ∧
      (meta_yml_line f ∉ st.meta_yml → m1 = insertAt st.meta_yml i (meta_yml_line f)) ∧
      (meta_yml_line f ∈ st.meta_yml → m1 = st.meta_yml) := by
  by_cases hm : meta_yml_line f ∈ st.meta_yml
  · refine ⟨st.meta_yml, ?_, ?_, fun hnot => absurd hm hnot, fun _ => rfl⟩
    · simp [update_antora_structure, update_meta_yml, hm]
    · simp only [update_antora_structure, update_meta_yml, Prod.mk.injEq]
      exact ⟨update_release_notes_doc_idem v f st.release_notes_adoc, by simp [hm]⟩
  · refine ⟨insertAt st.meta_yml i (meta_yml_line f), ?_, ?_, fun _ => rfl,
      fun hmem => absurd hmem hm⟩
    · simp [update_antora_structure, update_meta_yml, hm, hs]
    · simp only [update_antora_structure, update_meta_yml, Prod.mk.injEq]
      refine ⟨update_release_notes_doc_idem v f st.release_notes_adoc, ?_⟩
      simp [mem_insertAt_self (meta_yml_line f) st.meta_yml i]

/-- The two artifacts just before registering release 2.6.0: the
backlink file and a manifest whose sentinel is its second line. -/
def c6_state : AntoraState :=
  AntoraState.mk "header" ["x\n", "    - how-to-guides.adoc\n"]

/-- Witness for C6 at a concrete manifest whose sentinel sits at
index 1. -/
theorem c6_update_antora_idempotent_witness :
    sentinel_idx c6_state.meta_yml = some 1 ∧
    ∃ m1, (update_antora_structure "2.6.0" "release-2.6.0.adoc" c6_state).2 = some m1 ∧
      update_antora_structure "2.6.0" "release-2.6.0.adoc"
          (AntoraState.mk (update_antora_structure "2.6.0" "release-2.6.0.adoc" c6_state).1 m1)
        = ((update_antora_structure "2.6.0" "release-2.6.0.adoc" c6_state).1, some m1) ∧
      (meta_yml_line "release-2.6.0.adoc" ∉ c6_state.meta_yml →
        m1 = insertAt c6_state.meta_yml 1 (meta_yml_line "release-2.6.0.adoc")) ∧
      (meta_yml_line "release-2.6.0.adoc" ∈ c6_state.meta_yml → m1 = c6_state.meta_yml) :=
  ⟨rfl, c6_update_antora_idempotent "2.6.0" "release-2.6.0.adoc" c6_state 1 rfl⟩
